import Mathlib

/-!
A shallow embedding of `src/app.py`, a single-file dashboard that loads a
project-tracking table, filters it through a staged boolean mask, sorts the
result, and renders a master list with a single-selection detail view.

Modelling conventions:
* a pandas `DataFrame` is a `List Row` in file order;
* float64 cells are rationals, `NaN` (missing) is `Option.none`;
* the `ID` column is an integer column (`Int`), always present;
* the staged mask `mask &= ...` of lines 47-64 is embedded literally as a
  `List Bool` pipeline (`maskAnd` / `applyMask`), not as a single
  `List.filter`, so that the equivalence with the per-row conjunction is a
  theorem rather than a definition.
-/

/-- One row of the project table (one `Record`).  `title`, `area`,
`genArea`, `status` are object columns whose missing cells are `none`;
`savings` is the `Initial Estimated Savings` float column after the
loader's numeric coercion (`none` = NaN). -/
structure Row where
  id : Int
  title : Option String
  area : Option String
  genArea : Option String
  status : Option String
  savings : Option ℚ
deriving DecidableEq

/-- The sidebar state of one render: the free-text query (line 45), the
three multiselect selections (lines 25, 27, 39) and the savings slider
range (line 31). -/
structure Criteria where
  query : String
  areas : List String
  statuses : List String
  genAreas : List String
  savLo : Int
  savHi : Int
deriving DecidableEq

/-! ### Text search (lines 49-53)

`df[col].str.contains(q, case=False, na=False)` interprets `q` as a
regular expression (pandas default `regex=True`): the query is compiled
by `re.compile` — which *raises `re.error` on an invalid pattern*,
aborting the whole render — and matched with `re.search` under
`re.IGNORECASE`.

The embedding stratifies queries into three kinds (`queryKind` below):
* `plain` — every character is a literal or the `.` wildcard; on this
  fragment `reSearch` models `re.search` exactly;
* `invalid` — a syntactically certified subset of the patterns on which
  `re.compile` raises (a `(` with no `)`, no `\` and no `[` is an
  unterminated subpattern); on these the program aborts, modelled by the
  error branch of `filterChecked` / `runApp`;
* `unmodeled` — queries using other regex constructs (`*`, `+`, classes,
  alternation, escapes, ...), whose behavior — full-regex matching, or a
  different `re.error` — this embedding does not settle.
On non-`plain` strings `reSearch`/`textPred` are total don't-care
extensions: no theorem below consults them there; every theorem touching
an active text filter carries a `plain`-fragment hypothesis. -/

/-- One compiled pattern atom: a literal character or the `.` wildcard. -/
inductive Atom where
  | lit (c : Char)
  | dot
deriving DecidableEq

/-- Compile a pattern string, atom by atom: `.` becomes the wildcard,
anything else a literal. -/
def compilePat : List Char → List Atom
  | [] => []
  | c :: cs => (if c = '.' then Atom.dot else Atom.lit c) :: compilePat cs

/-- Case-insensitive match of one atom against one subject character;
the wildcard matches every character except a newline (Python `re.search`
without `DOTALL`). -/
def atomMatch : Atom → Char → Bool
  | Atom.lit c, h => c.toLower == h.toLower
  | Atom.dot, h => h != '\n'

/-- Match the whole atom list against a prefix of the subject. -/
def matchHere : List Atom → List Char → Bool
  | [], _ => true
  | _ :: _, [] => false
  | a :: as, c :: cs => atomMatch a c && matchHere as cs

/-- `re.search`: try the match at every start position. -/
def searchFrom (pats : List Atom) : List Char → Bool
  | [] => matchHere pats []
  | c :: cs => matchHere pats (c :: cs) || searchFrom pats cs

/-- `bool(re.search(pat, s, re.IGNORECASE))`.  Exact for `plain`-fragment
patterns (literals and `.` only); on any other string this is a total
don't-care extension that no theorem relies on. -/
def reSearch (pat s : String) : Bool :=
  searchFrom (compilePat pat.data) s.data

/-- The spec's wording of the text test, for comparison with `reSearch`:
case-insensitive *substring* containment, lowercasing both sides. -/
def subAt : List Char → List Char → Bool
  | [], _ => true
  | _ :: _, [] => false
  | a :: as, b :: bs => (a == b) && subAt as bs

/-- Spec-side helper: is `pat` a contiguous sublist of `s`? -/
def subFind (pat : List Char) : List Char → Bool
  | [] => pat.isEmpty
  | c :: cs => subAt pat (c :: cs) || subFind pat cs

/-- The spec's "case-insensitive substring" predicate (not the code's:
the code uses `reSearch`). -/
def strContainsCI (q s : String) : Bool :=
  subFind (q.data.map Char.toLower) (s.data.map Char.toLower)

/-- Text predicate, line 50-53: the query matches `str(ID)` or `Title`;
a missing `Title` is non-matching (`na=False`).  Like `reSearch`, exact
for `plain`-fragment queries only; the program's abort on invalid
patterns is carried by `filterChecked` / `runApp`, not here. -/
def textPred (q : String) (r : Row) : Bool :=
  reSearch q (toString r.id) ||
    (match r.title with
     | some t => reSearch q t
     | none => false)

/-- The characters the Python `re` engine treats specially besides the
`.` wildcard. -/
def metaNonDot : List Char :=
  ['^', '$', '*', '+', '?', '{', '}', '[', ']', '\\', '|', '(', ')']

/-- All Python regex metacharacters. -/
def regexMeta : List Char := '.' :: metaNonDot

/-- How far the embedding can follow `re.compile` on a query. -/
inductive QueryKind where
  | plain
  | invalid
  | unmodeled
deriving DecidableEq

/-- Classify a query: `plain` — only literals and `.`, the fragment
`reSearch` models exactly; `invalid` — certified to raise `re.error`
("missing ), unterminated subpattern": a `(` that cannot be closed,
escaped, or neutralised by a character class; `unmodeled` — any other
use of regex metacharacters, outside this embedding. -/
def queryKind (q : String) : QueryKind :=
  if q.data.all fun ch => !(metaNonDot.contains ch) then QueryKind.plain
  else if q.data.contains '(' && !(q.data.contains ')')
      && !(q.data.contains '\\') && !(q.data.contains '[') then QueryKind.invalid
  else QueryKind.unmodeled

/-! ### Categorical options (lines 24, 26, 38)

`df[col].dropna().unique().tolist()`: the distinct non-missing values in
first-occurrence order. -/

/-- Distinct values in first-occurrence order, skipping ones in `seen`. -/
def uniqAux (seen : List String) : List String → List String
  | [] => []
  | x :: xs => if x ∈ seen then uniqAux seen xs else x :: uniqAux (x :: seen) xs

/-- `Series.unique().tolist()`: first-occurrence-ordered distinct values. -/
def uniqList (l : List String) : List String := uniqAux [] l

/-- Line 24: the Area multiselect options. -/
def areaOptions (d : List Row) : List String :=
  uniqList (d.filterMap (fun r => r.area))

/-- Line 26: the Project Status multiselect options. -/
def statusOptions (d : List Row) : List String :=
  uniqList (d.filterMap (fun r => r.status))

/-- Line 38: the General Area multiselect options. -/
def genAreaOptions (d : List Row) : List String :=
  uniqList (d.filterMap (fun r => r.genArea))

/-! ### The five row predicates and their activity guards -/

/-- `df[col].isin(selected)` for an object column: a missing cell is never
a member. -/
def catPred (sel : List String) (v : Option String) : Bool :=
  match v with
  | some a => sel.contains a
  | none => false

/-- Line 60: `between(low, high)` on the savings column, inclusive on both
ends; NaN is never between anything. -/
def savPred (lo hi : Int) (r : Row) : Bool :=
  match r.savings with
  | some v => decide ((lo : ℚ) ≤ v) && decide (v ≤ (hi : ℚ))
  | none => false

/-- Line 49 guard: the text filter runs iff the query is non-empty. -/
def textActive (c : Criteria) : Prop := c.query ≠ ""

/-- Line 55 guard: `len(selected_areas) < len(area_options)`. -/
def areaActive (d : List Row) (c : Criteria) : Prop :=
  c.areas.length < (areaOptions d).length

/-- Line 57 guard: `len(selected_status) < len(status_options)`. -/
def statusActive (d : List Row) (c : Criteria) : Prop :=
  c.statuses.length < (statusOptions d).length

/-- Line 62 guard: `len(selected_gen_areas) < len(gen_area_options)`. -/
def genAreaActive (d : List Row) (c : Criteria) : Prop :=
  c.genAreas.length < (genAreaOptions d).length

instance (c : Criteria) : Decidable (textActive c) := by
  unfold textActive; infer_instance

instance (d : List Row) (c : Criteria) : Decidable (areaActive d c) := by
  unfold areaActive; infer_instance

instance (d : List Row) (c : Criteria) : Decidable (statusActive d c) := by
  unfold statusActive; infer_instance

instance (d : List Row) (c : Criteria) : Decidable (genAreaActive d c) := by
  unfold genAreaActive; infer_instance

/-! ### The staged mask pipeline (lines 47-64) -/

/-- `mask &= series.map(p)`: conjoin a per-row predicate into the mask,
position by position. -/
def maskAnd (m : List Bool) (p : Row → Bool) (d : List Row) : List Bool :=
  List.zipWith (fun b r => b && p r) m d

/-- `df[mask]`: keep the rows whose mask bit is true, in order. -/
def applyMask : List Row → List Bool → List Row
  | [], _ => []
  | _ :: _, [] => []
  | r :: rs, b :: bs => if b then r :: applyMask rs bs else applyMask rs bs

/-- Lines 47-64: the filter pipeline exactly as staged in the source —
start from an all-true mask, conjoin the text predicate when the query is
non-empty, each categorical predicate when the selection is narrower than
its options, and the savings-range predicate unconditionally; finally
take `df[mask]`. -/
def filterData (d : List Row) (c : Criteria) : List Row :=
  let m0 := List.replicate d.length true
  let m1 := if textActive c then maskAnd m0 (textPred c.query) d else m0
  let m2 := if areaActive d c then maskAnd m1 (fun r => catPred c.areas r.area) d else m1
  let m3 := if statusActive d c then maskAnd m2 (fun r => catPred c.statuses r.status) d else m2
  let m4 := maskAnd m3 (savPred c.savLo c.savHi) d
  let m5 := if genAreaActive d c then maskAnd m4 (fun r => catPred c.genAreas r.genArea) d else m4
  applyMask d m5

/-- The text stage's contribution to one row's mask bit: the text
predicate when active, no constraint otherwise. -/
def textStage (c : Criteria) (r : Row) : Bool :=
  if textActive c then textPred c.query r else true

/-- The Area stage's contribution to one row's mask bit. -/
def areaStage (d : List Row) (c : Criteria) (r : Row) : Bool :=
  if areaActive d c then catPred c.areas r.area else true

/-- The Project Status stage's contribution to one row's mask bit. -/
def statusStage (d : List Row) (c : Criteria) (r : Row) : Bool :=
  if statusActive d c then catPred c.statuses r.status else true

/-- The General Area stage's contribution to one row's mask bit. -/
def genAreaStage (d : List Row) (c : Criteria) (r : Row) : Bool :=
  if genAreaActive d c then catPred c.genAreas r.genArea else true

/-- Per-row reading of the pipeline: a row passes iff it satisfies every
*active* predicate (an inactive predicate imposes nothing; the savings
range is always active). -/
def rowPass (d : List Row) (c : Criteria) (r : Row) : Bool :=
  (((textStage c r
    && areaStage d c r)
    && statusStage d c r)
    && savPred c.savLo c.savHi r)
    && genAreaStage d c r

/-- Lines 47-64 with line 50's regex compilation made explicit: a
`plain` query filters as `filterData`; a certified-invalid query makes
`str.contains` raise `re.error`, so the program returns no subset at
all; a query outside the modelled fragment is not settled by this
embedding (`none`).  (An empty query skips the text stage entirely —
line 49 — and is `plain`.) -/
def filterChecked (d : List Row) (c : Criteria) : Option (Except String (List Row)) :=
  match queryKind c.query with
  | QueryKind.plain => some (Except.ok (filterData d c))
  | QueryKind.invalid =>
    some (Except.error "re.error: missing ), unterminated subpattern")
  | QueryKind.unmodeled => none

/-! ### Slider bounds and default criteria (lines 29-36) -/

/-- `Series.min()` with NaN skipped: `none` when no value is present. -/
def listMin : List ℚ → Option ℚ
  | [] => none
  | x :: xs =>
    match listMin xs with
    | none => some x
    | some m => some (min x m)

/-- `Series.max()` with NaN skipped. -/
def listMax : List ℚ → Option ℚ
  | [] => none
  | x :: xs =>
    match listMax xs with
    | none => some x
    | some m => some (max x m)

/-- The non-missing savings values, in order. -/
def presentSavings (d : List Row) : List ℚ :=
  d.filterMap (fun r => r.savings)

/-- Python `int()` on a number: truncation toward zero. -/
def pyInt (q : ℚ) : Int := q.num.tdiv (q.den : Int)

/-- Lines 29-30: `int(min)` and `int(max)` of the savings column.  When
the column has no present value the min is NaN and `int(NaN)` raises
`ValueError`, modelled as `none`. -/
def sliderBounds (d : List Row) : Option (Int × Int) :=
  match listMin (presentSavings d), listMax (presentSavings d) with
  | some lo, some hi => some (pyInt lo, pyInt hi)
  | _, _ => none

/-- The sidebar state before the user touches anything: empty query, all
options of every multiselect selected, slider at its full extent
`(int(min), int(max))`.  Only meaningful when `sliderBounds` exists (the
program has already crashed otherwise). -/
def defaultCriteria (d : List Row) : Criteria :=
  let b := (sliderBounds d).getD (0, 0)
  { query := ""
    areas := areaOptions d
    statuses := statusOptions d
    genAreas := genAreaOptions d
    savLo := b.1
    savHi := b.2 }

/-! ### Sort stage (lines 68-72)

`filtered_df.sort_values(by=sort_by, ascending=ascending)` with the
default `kind='quicksort'`.  pandas `nargsort` sets the missing-key rows
aside (`na_position='last'`), argsorts the present-key rows, reverses the
present-key block before and after the argsort when descending, and
appends the missing-key rows at the end.  numpy's quicksort is an
introsort that falls back to a *stable* insertion sort on partitions of
at most 16 elements; this embedding uses that stable-regime semantics (a
stable insertion sort), which coincides with the code on every subset
small enough to stay in the insertion-sort regime.  The
reverse/argsort/reverse sandwich of a stable argsort is extensionally a
stable sort under the flipped strict comparator, which is how descending
order is rendered here. -/

/-- The allow-listed sort columns, line 69. -/
inductive SortField where
  | id
  | title
  | savings
  | status
deriving DecidableEq

/-- Is the sort key of `r` present (non-NaN / non-None)? -/
def hasKey : SortField → Row → Bool
  | SortField.id, _ => true
  | SortField.title, r => r.title.isSome
  | SortField.savings, r => r.savings.isSome
  | SortField.status, r => r.status.isSome

/-- Strict "key of `a` sorts before key of `b`" for ascending order;
only consulted on rows whose key is present. -/
def keyLt : SortField → Row → Row → Bool
  | SortField.id, a, b => decide (a.id < b.id)
  | SortField.title, a, b =>
    match a.title, b.title with
    | some x, some y => decide (x < y)
    | _, _ => false
  | SortField.savings, a, b =>
    match a.savings, b.savings with
    | some x, some y => decide (x < y)
    | _, _ => false
  | SortField.status, a, b =>
    match a.status, b.status with
    | some x, some y => decide (x < y)
    | _, _ => false

/-- Stable insertion: place `a` before the first element that does not
strictly precede it. -/
def insertRow (lt : Row → Row → Bool) (a : Row) : List Row → List Row
  | [] => [a]
  | b :: bs => if lt b a then b :: insertRow lt a bs else a :: b :: bs

/-- Stable insertion sort by a strict comparator: ties and incomparable
rows keep their input order. -/
def isortBy (lt : Row → Row → Bool) : List Row → List Row
  | [] => []
  | a :: as => insertRow lt a (isortBy lt as)

/-- Line 72, in the stable regime: present-key rows stably sorted by the
chosen field (flipped comparator when descending), missing-key rows
appended in input order. -/
def sortData (f : SortField) (asc : Bool) (l : List Row) : List Row :=
  let present := l.filter (hasKey f)
  let missing := l.filter (fun r => !(hasKey f r))
  isortBy (fun x y => if asc then keyLt f x y else keyLt f y x) present ++ missing

/-- A sort request: allow-listed field plus direction (line 69-71; the
defaults are the savings column, descending). -/
structure SortSpec where
  field : SortField
  asc : Bool
deriving DecidableEq

/-! ### Selection state and rendering (lines 74-104) -/

/-- What the detail area shows: nothing at all, the not-found warning
(line 97), or the first matching row rendered field by field (lines
99-104). -/
inductive DetailView where
  | hidden
  | notFound
  | shown (r : Row)
deriving DecidableEq

/-- The page body below the subheader: the no-matches message (line 77)
or the listing plus whatever the detail area shows. -/
inductive View where
  | noMatches
  | listing (rows : List Row) (detail : DetailView)
deriving DecidableEq

/-- Lines 93-104: the detail area.  `if st.session_state.selected_proj:`
is a Python *truthiness* test, so both an unset selection (`None`) and a
selected identifier equal to `0` skip the detail area entirely.  When the
test passes, the identifier is looked up in the *full* table `df` by
equality on `ID`; no match shows the warning, otherwise `iloc[0]` — the
first match — is rendered. -/
def renderDetail (d : List Row) (sel : Option Int) : DetailView :=
  match sel with
  | none => DetailView.hidden
  | some x =>
    if x = 0 then DetailView.hidden
    else
      match d.find? (fun r => r.id == x) with
      | none => DetailView.notFound
      | some r => DetailView.shown r

/-- Lines 72-104: sort the filtered subset, then either the no-matches
message (the detail area is unreachable, line 76's `if filtered_df.empty`)
or the listing with the detail area. -/
def renderApp (d : List Row) (c : Criteria) (s : SortSpec) (sel : Option Int) : View :=
  let sorted := sortData s.field s.asc (filterData d c)
  if sorted.isEmpty then View.noMatches
  else View.listing sorted (renderDetail d sel)

/-- Lines 18-104 after a successful load.  Two abort paths are modelled:
computing the slider bounds (lines 29-30) raises `ValueError` when the
savings column has no present value (`int(NaN)`), and a certified-invalid
search query raises `re.error` at line 51.  For a `plain` query every
later step is total and yields a view; a query outside the modelled
fragment leaves the run unsettled (`none`). -/
def runApp (d : List Row) (c : Criteria) (s : SortSpec) (sel : Option Int) :
    Option (Except String View) :=
  match sliderBounds d with
  | none => some (Except.error "ValueError: cannot convert float NaN to integer")
  | some _ =>
    match queryKind c.query with
    | QueryKind.plain => some (Except.ok (renderApp d c s sel))
    | QueryKind.invalid =>
      some (Except.error "re.error: missing ), unterminated subpattern")
    | QueryKind.unmodeled => none

/-! ### Loader (lines 4-11)

`pd.read_csv(path, thousands=',')` followed by
`pd.to_numeric(df['Initial Estimated Savings'], errors='coerce')`:
a savings cell has its grouping commas stripped and is read as a decimal
number; any cell that still fails to read becomes NaN instead of failing
the load.  The embedding models the per-cell coercion on an
already-tokenised table; the fatal path-level errors (missing file,
unparsable file) are outside it. -/

/-- Accumulate decimal digits; `none` as soon as a non-digit appears. -/
def digitsVal (cs : List Char) : Option Nat :=
  cs.foldl
    (fun acc c =>
      match acc with
      | some n => if c.isDigit then some (10 * n + (c.toNat - '0'.toNat)) else none
      | none => none)
    (some 0)

/-- Read an unsigned decimal numeral with an optional fractional part
(`"987311"`, `"12.5"`, `".5"`, `"5."`); at least one digit overall. -/
def readUnsigned (cs : List Char) : Option ℚ :=
  let intPart := cs.takeWhile (fun c => c ≠ '.')
  let rest := cs.dropWhile (fun c => c ≠ '.')
  match rest with
  | [] =>
    if intPart.isEmpty then none
    else (digitsVal intPart).map (fun n => (n : ℚ))
  | _ :: fracPart =>
    if fracPart.contains '.' then none
    else if intPart.isEmpty && fracPart.isEmpty then none
    else
      match digitsVal intPart, digitsVal fracPart with
      | some n, some f => some ((n : ℚ) + (f : ℚ) / ((10 : ℚ) ^ fracPart.length))
      | _, _ => none

/-- Read a decimal number with an optional leading sign. -/
def readNumber (s : String) : Option ℚ :=
  match s.data with
  | '-' :: rest => (readUnsigned rest).map (fun q => -q)
  | '+' :: rest => readUnsigned rest
  | cs => readUnsigned cs

/-- The savings-cell coercion of lines 8-10: strip the thousands
separators, then read a number; unreadable cells become missing. -/
def coerceSavings (s : String) : Option ℚ :=
  readNumber (String.mk (s.data.filter (fun c => c ≠ ',')))

/-- A raw table row as tokenised from the CSV, before numeric coercion:
the savings cell is still text. -/
structure RawRow where
  id : Int
  title : Option String
  area : Option String
  genArea : Option String
  status : Option String
  savings : String
deriving DecidableEq

/-- Coerce one raw row. -/
def loadRow (w : RawRow) : Row :=
  { id := w.id
    title := w.title
    area := w.area
    genArea := w.genArea
    status := w.status
    savings := coerceSavings w.savings }

/-- Lines 4-11, `load_data` applied to an already-tokenised table: coerce
the savings cell of every row, keeping every row. -/
def load_data (raws : List RawRow) : List Row :=
  raws.map loadRow

/-! ## The mask pipeline is a filter -/

theorem applyMask_map (d : List Row) (g : Row → Bool) :
    applyMask d (d.map g) = d.filter g := by
  induction d with
  | nil => rfl
  | cons r rs ih =>
    simp only [List.map_cons, applyMask, List.filter_cons]
    cases h : g r <;> simp [h, ih]

theorem maskAnd_map (d : List Row) (g p : Row → Bool) :
    maskAnd (d.map g) p d = d.map fun r => g r && p r := by
  induction d with
  | nil => rfl
  | cons r rs ih => simpa [maskAnd] using ih

theorem replicate_true_eq_map (d : List Row) :
    List.replicate d.length true = d.map fun _ => true := by
  induction d with
  | nil => rfl
  | cons r rs ih => simp only [List.length_cons, List.replicate_succ, List.map_cons, ih]

/-- One guarded stage of the pipeline, read off the mask: conjoining `p`
under a guard is mapping the guarded conjunct over the rows. -/
theorem condStage (d : List Row) (g p : Row → Bool) (cond : Prop) [Decidable cond] :
    (if cond then maskAnd (d.map g) p d else d.map g)
      = d.map fun r => g r && (if cond then p r else true) := by
  by_cases h : cond
  · rw [if_pos h, maskAnd_map]
    congr 1
    funext r
    rw [if_pos h]
  · rw [if_neg h]
    congr 1
    funext r
    rw [if_neg h, Bool.and_true]

/-- The staged mask pipeline computes exactly the per-row conjunction of
the active predicates. -/
theorem filterData_eq (d : List Row) (c : Criteria) :
    filterData d c = d.filter (rowPass d c) := by
  simp only [filterData]
  rw [replicate_true_eq_map, condStage, condStage, condStage, maskAnd_map,
    condStage, applyMask_map]
  refine List.filter_congr fun r _ => ?_
  simp only [rowPass, textStage, areaStage, statusStage, genAreaStage, Bool.true_and]

/-- C1 (corrected): for every Dataset `d` and every criteria `c` whose
query lies in the compiled fragment (no regex operators; the empty query
included), the filter returns a subset — `filterChecked` succeeds — and
that subset is exactly the rows of `d` satisfying every active predicate
(`rowPass`), a sublist of `d`, so the original relative order is
preserved.  The unrestricted claim is false: a query on which
`re.compile` raises makes line 51 abort instead of returning a subset
(see the counterexample). -/
theorem c1_filter_exact (d : List Row) (c : Criteria)
    (hq : queryKind c.query = QueryKind.plain) :
    filterChecked d c = some (Except.ok (filterData d c))
    ∧ filterData d c = d.filter (rowPass d c)
    ∧ List.Sublist (filterData d c) d
    ∧ ∀ r : Row, r ∈ filterData d c ↔ r ∈ d ∧ rowPass d c r = true := by
  refine ⟨by rw [filterChecked, hq], filterData_eq d c, ?_, ?_⟩
  · rw [filterData_eq]
    exact List.filter_sublist d
  · intro r
    rw [filterData_eq]
    simp [List.mem_filter]

/-! ## Example rows (the spec's own end-to-end dataset, section 8, plus
variants exercising missing values and a falsy identifier) -/

/-- Row 1 of the spec's end-to-end scenario. -/
def exAlpha : Row :=
  { id := 1, title := some "Alpha", area := some "X", genArea := some "G1",
    status := some "Open", savings := some 1000 }

/-- Row 2 of the spec's end-to-end scenario. -/
def exBeta : Row :=
  { id := 2, title := some "Beta", area := some "Y", genArea := some "G2",
    status := some "Closed", savings := some 500 }

/-- A row whose savings cell is missing (NaN after coercion). -/
def exNoSav : Row :=
  { id := 3, title := some "Gamma", area := some "X", genArea := some "G1",
    status := some "Open", savings := none }

/-- A row whose identifier is `0` — falsy in Python. -/
def exZero : Row :=
  { id := 0, title := some "Zero", area := some "X", genArea := some "G1",
    status := some "Open", savings := some 100 }

/-- A plain criteria value used by witnesses. -/
def exCritBase : Criteria :=
  { query := "", areas := [], statuses := [], genAreas := [], savLo := 0, savHi := 2000 }

/-- C1 counterexample: with the query `"("` — non-empty, so the text
filter is active — `re.compile` raises `re.error`: the program returns
no subset at all, so `filter` does not return the rows satisfying the
active predicates. -/
theorem c1_filter_cex :
    filterChecked [exAlpha] { exCritBase with query := "(" }
      = some (Except.error "re.error: missing ), unterminated subpattern") := rfl

theorem c1_filter_exact_witness :
    filterChecked [exAlpha, exBeta] { exCritBase with query := "beta" }
      = some (Except.ok (filterData [exAlpha, exBeta] { exCritBase with query := "beta" }))
    ∧ filterData [exAlpha, exBeta] { exCritBase with query := "beta" }
      = List.filter (rowPass [exAlpha, exBeta] { exCritBase with query := "beta" })
          [exAlpha, exBeta] :=
  ⟨(c1_filter_exact [exAlpha, exBeta] { exCritBase with query := "beta" } (by decide)).1,
   (c1_filter_exact [exAlpha, exBeta] { exCritBase with query := "beta" } (by decide)).2.1⟩

/-! ## Minimum / maximum of the savings column -/

theorem listMin_isSome {l : List ℚ} (h : l ≠ []) : (listMin l).isSome = true := by
  cases l with
  | nil => exact absurd rfl h
  | cons x xs =>
    cases hxs : listMin xs <;> simp [listMin, hxs]

theorem listMax_isSome {l : List ℚ} (h : l ≠ []) : (listMax l).isSome = true := by
  cases l with
  | nil => exact absurd rfl h
  | cons x xs =>
    cases hxs : listMax xs <;> simp [listMax, hxs]

theorem listMin_eq_none {l : List ℚ} (h : listMin l = none) : l = [] := by
  cases l with
  | nil => rfl
  | cons x xs => cases hxs : listMin xs <;> simp [listMin, hxs] at h

theorem listMax_eq_none {l : List ℚ} (h : listMax l = none) : l = [] := by
  cases l with
  | nil => rfl
  | cons x xs => cases hxs : listMax xs <;> simp [listMax, hxs] at h

theorem listMin_le {l : List ℚ} {m : ℚ} (h : listMin l = some m) :
    ∀ x ∈ l, m ≤ x := by
  induction l generalizing m with
  | nil => simp [listMin] at h
  | cons x xs ih =>
    intro y hy
    cases hxs : listMin xs with
    | none =>
      rw [listMin, hxs] at h
      obtain rfl : x = m := by injection h
      rcases List.mem_cons.mp hy with rfl | hy'
      · exact le_refl _
      · rw [listMin_eq_none hxs] at hy'
        simp at hy'
    | some m' =>
      rw [listMin, hxs] at h
      obtain rfl : min x m' = m := by injection h
      rcases List.mem_cons.mp hy with rfl | hy'
      · exact min_le_left _ _
      · exact le_trans (min_le_right _ _) (ih hxs y hy')

theorem listMax_ge {l : List ℚ} {m : ℚ} (h : listMax l = some m) :
    ∀ x ∈ l, x ≤ m := by
  induction l generalizing m with
  | nil => simp [listMax] at h
  | cons x xs ih =>
    intro y hy
    cases hxs : listMax xs with
    | none =>
      rw [listMax, hxs] at h
      obtain rfl : x = m := by injection h
      rcases List.mem_cons.mp hy with rfl | hy'
      · exact le_refl _
      · rw [listMax_eq_none hxs] at hy'
        simp at hy'
    | some m' =>
      rw [listMax, hxs] at h
      obtain rfl : max x m' = m := by injection h
      rcases List.mem_cons.mp hy with rfl | hy'
      · exact le_max_left _ _
      · exact le_trans (ih hxs y hy') (le_max_right _ _)

theorem listMin_mem {l : List ℚ} {m : ℚ} (h : listMin l = some m) : m ∈ l := by
  induction l generalizing m with
  | nil => simp [listMin] at h
  | cons x xs ih =>
    cases hxs : listMin xs with
    | none =>
      rw [listMin, hxs] at h
      obtain rfl : x = m := by injection h
      exact List.mem_cons_self _ _
    | some m' =>
      rw [listMin, hxs] at h
      obtain rfl : min x m' = m := by injection h
      rcases min_choice x m' with hc | hc
      · rw [hc]; exact List.mem_cons_self _ _
      · rw [hc]; exact List.mem_cons_of_mem _ (ih hxs)

theorem listMax_mem {l : List ℚ} {m : ℚ} (h : listMax l = some m) : m ∈ l := by
  induction l generalizing m with
  | nil => simp [listMax] at h
  | cons x xs ih =>
    cases hxs : listMax xs with
    | none =>
      rw [listMax, hxs] at h
      obtain rfl : x = m := by injection h
      exact List.mem_cons_self _ _
    | some m' =>
      rw [listMax, hxs] at h
      obtain rfl : max x m' = m := by injection h
      rcases max_choice x m' with hc | hc
      · rw [hc]; exact List.mem_cons_self _ _
      · rw [hc]; exact List.mem_cons_of_mem _ (ih hxs)

theorem mem_presentSavings {d : List Row} {r : Row} {v : ℚ}
    (hr : r ∈ d) (hv : r.savings = some v) : v ∈ presentSavings d :=
  List.mem_filterMap.mpr ⟨r, hr, hv⟩

theorem presentSavings_sources {d : List Row} {v : ℚ} (h : v ∈ presentSavings d) :
    ∃ r ∈ d, r.savings = some v :=
  List.mem_filterMap.mp h

/-- Truncation is the identity on integral rationals. -/
theorem pyInt_den_one {q : ℚ} (h : q.den = 1) : ((pyInt q : Int) : ℚ) = q := by
  have hq : pyInt q = q.num := by simp [pyInt, h]
  rw [hq]
  exact (Rat.den_eq_one_iff q).mp h

/-! ## C2: behavior of the default criteria -/

theorem textActive_default (d : List Row) : ¬ textActive (defaultCriteria d) := by
  simp [textActive, defaultCriteria]

theorem areaActive_default (d : List Row) : ¬ areaActive d (defaultCriteria d) := by
  simp [areaActive, defaultCriteria]

theorem statusActive_default (d : List Row) : ¬ statusActive d (defaultCriteria d) := by
  simp [statusActive, defaultCriteria]

theorem genAreaActive_default (d : List Row) : ¬ genAreaActive d (defaultCriteria d) := by
  simp [genAreaActive, defaultCriteria]

/-- C2 (corrected): the default criteria are *not* a no-op.  The savings
range is applied even at its default extent, so the default filter keeps
exactly the rows whose savings value is present; when every present
savings value is integral, those rows all survive the truncated
`(int(min), int(max))` slider default.  (The original claim fails: see
the counterexample with a missing savings value.) -/
theorem c2_default_amended (d : List Row)
    (h1 : ∃ r ∈ d, (r.savings).isSome = true)
    (h2 : ∀ r ∈ d, ∀ v : ℚ, r.savings = some v → v.den = 1) :
    filterData d (defaultCriteria d) = d.filter fun r => (r.savings).isSome := by
  obtain ⟨r0, hr0, hs0⟩ := h1
  obtain ⟨v0, hv0⟩ := Option.isSome_iff_exists.mp hs0
  have hne : presentSavings d ≠ [] := by
    intro hnil
    have hmem := mem_presentSavings hr0 hv0
    rw [hnil] at hmem
    simp at hmem
  obtain ⟨mn, hmn⟩ := Option.isSome_iff_exists.mp (listMin_isSome hne)
  obtain ⟨mx, hmx⟩ := Option.isSome_iff_exists.mp (listMax_isSome hne)
  have hsb : sliderBounds d = some (pyInt mn, pyInt mx) := by
    simp [sliderBounds, hmn, hmx]
  have hlo : (defaultCriteria d).savLo = pyInt mn := by simp [defaultCriteria, hsb]
  have hhi : (defaultCriteria d).savHi = pyInt mx := by simp [defaultCriteria, hsb]
  have hmnd : mn.den = 1 := by
    obtain ⟨r', hr', hv'⟩ := presentSavings_sources (listMin_mem hmn)
    exact h2 r' hr' mn hv'
  have hmxd : mx.den = 1 := by
    obtain ⟨r', hr', hv'⟩ := presentSavings_sources (listMax_mem hmx)
    exact h2 r' hr' mx hv'
  rw [filterData_eq]
  refine List.filter_congr fun r hr => ?_
  simp only [rowPass, textStage, areaStage, statusStage, genAreaStage,
    if_neg (textActive_default d), if_neg (areaActive_default d),
    if_neg (statusActive_default d), if_neg (genAreaActive_default d),
    Bool.true_and, Bool.and_true, hlo, hhi]
  cases hsv : r.savings with
  | none => simp [savPred, hsv]
  | some v =>
    have hv : v ∈ presentSavings d := mem_presentSavings hr hsv
    have hv1 : mn ≤ v := listMin_le hmn v hv
    have hv2 : v ≤ mx := listMax_ge hmx v hv
    simp only [savPred, hsv, Option.isSome_some]
    rw [pyInt_den_one hmnd, pyInt_den_one hmxd]
    simp [hv1, hv2]

/-- C2 counterexample: a dataset with a row whose savings value is
missing; the default-criteria filter drops that row, so it is not the
identity. -/
theorem c2_default_cex :
    filterData [exAlpha, exNoSav] (defaultCriteria [exAlpha, exNoSav])
      ≠ [exAlpha, exNoSav] := by decide

theorem c2_default_amended_witness :
    filterData [exAlpha, exBeta] (defaultCriteria [exAlpha, exBeta])
      = List.filter (fun r => (r.savings).isSome) [exAlpha, exBeta] :=
  c2_default_amended [exAlpha, exBeta]
    ⟨exAlpha, by decide, by decide⟩
    (by
      intro r hr v hv
      rcases List.mem_cons.mp hr with rfl | hr2
      · simp only [exAlpha, Option.some.injEq] at hv
        subst hv
        decide
      · rcases List.mem_cons.mp hr2 with rfl | hr3
        · simp only [exBeta, Option.some.injEq] at hv
          subst hv
          decide
        · simp at hr3)

/-! ## C5: the savings-range predicate -/

/-- C5: the savings-range predicate is conjoined into the mask on every
evaluation (any row surviving the filter satisfies it), a row with a
present value satisfies it iff the value lies in the inclusive
`[savLo, savHi]` range, and a row with a missing value never satisfies
it, whatever the range. -/
theorem c5_savings_always (d : List Row) (c : Criteria) :
    (∀ r ∈ filterData d c, savPred c.savLo c.savHi r = true)
    ∧ (∀ r : Row, ∀ v : ℚ, r.savings = some v →
        (savPred c.savLo c.savHi r = true ↔ ((c.savLo : ℚ) ≤ v ∧ v ≤ (c.savHi : ℚ))))
    ∧ (∀ r : Row, r.savings = none → savPred c.savLo c.savHi r = false) := by
  refine ⟨?_, ?_, ?_⟩
  · intro r hr
    rw [filterData_eq, List.mem_filter] at hr
    have hpass := hr.2
    simp only [rowPass, Bool.and_eq_true] at hpass
    exact hpass.1.2
  · intro r v hv
    simp [savPred, hv, Bool.and_eq_true, decide_eq_true_eq]
  · intro r hv
    simp [savPred, hv]

theorem c5_savings_always_witness :
    savPred exCritBase.savLo exCritBase.savHi exAlpha = true
    ∧ savPred exCritBase.savLo exCritBase.savHi exNoSav = false :=
  ⟨((c5_savings_always [exAlpha] exCritBase).2.1 exAlpha 1000 rfl).mpr (by decide),
   (c5_savings_always [exNoSav] exCritBase).2.2 exNoSav rfl⟩

/-! ## C6: the categorical predicates -/

theorem mem_uniqAux {a : String} : ∀ (l seen : List String),
    a ∈ uniqAux seen l ↔ a ∈ l ∧ a ∉ seen := by
  intro l
  induction l with
  | nil => intro seen; simp [uniqAux]
  | cons x xs ih =>
    intro seen
    by_cases hx : x ∈ seen
    · simp only [uniqAux, if_pos hx, ih, List.mem_cons]
      constructor
      · rintro ⟨h1, h2⟩
        exact ⟨Or.inr h1, h2⟩
      · rintro ⟨h1 | h1, h2⟩
        · subst h1; exact absurd hx h2
        · exact ⟨h1, h2⟩
    · simp only [uniqAux, if_neg hx, List.mem_cons, ih]
      constructor
      · rintro (rfl | ⟨h1, h2⟩)
        · exact ⟨Or.inl rfl, hx⟩
        · exact ⟨Or.inr h1, fun hs => h2 (Or.inr hs)⟩
      · rintro ⟨h1, h2⟩
        by_cases hax : a = x
        · exact Or.inl hax
        · have h3 : a ∈ xs := by
            rcases h1 with h | h
            · exact absurd h hax
            · exact h
          refine Or.inr ⟨h3, fun hs => ?_⟩
          rcases hs with h | h
          · exact hax h
          · exact h2 h

theorem nodup_uniqAux : ∀ (l seen : List String), (uniqAux seen l).Nodup := by
  intro l
  induction l with
  | nil => intro seen; simp [uniqAux]
  | cons x xs ih =>
    intro seen
    by_cases hx : x ∈ seen
    · simpa [uniqAux, hx] using ih seen
    · rw [show uniqAux seen (x :: xs) = x :: uniqAux (x :: seen) xs from by
        simp [uniqAux, hx]]
      refine List.nodup_cons.mpr ⟨?_, ih _⟩
      intro hmem
      rcases (mem_uniqAux xs (x :: seen)).mp hmem with ⟨_, hnotin⟩
      exact hnotin (List.mem_cons_self _ _)

theorem mem_uniqList {a : String} {l : List String} : a ∈ uniqList l ↔ a ∈ l := by
  simp [uniqList, mem_uniqAux]

theorem nodup_uniqList (l : List String) : (uniqList l).Nodup := nodup_uniqAux l []

theorem mem_areaOptions {d : List Row} {a : String} :
    a ∈ areaOptions d ↔ ∃ r ∈ d, r.area = some a := by
  simp [areaOptions, mem_uniqList, List.mem_filterMap]

theorem mem_statusOptions {d : List Row} {a : String} :
    a ∈ statusOptions d ↔ ∃ r ∈ d, r.status = some a := by
  simp [statusOptions, mem_uniqList, List.mem_filterMap]

theorem mem_genAreaOptions {d : List Row} {a : String} :
    a ∈ genAreaOptions d ↔ ∃ r ∈ d, r.genArea = some a := by
  simp [genAreaOptions, mem_uniqList, List.mem_filterMap]

/-- With a duplicate-free selection drawn from duplicate-free options,
the source's length test is exactly strict set inclusion, and a full
selection fails it. -/
theorem length_lt_iff_ssubset {sel opts : List String}
    (hn : sel.Nodup) (ho : opts.Nodup) (hsub : sel ⊆ opts) :
    (sel.length < opts.length ↔ sel.toFinset ⊂ opts.toFinset)
    ∧ (sel.toFinset = opts.toFinset → ¬ sel.length < opts.length) := by
  have hsubF : sel.toFinset ⊆ opts.toFinset := by
    intro a ha
    rw [List.mem_toFinset] at ha ⊢
    exact hsub ha
  have hc1 : sel.toFinset.card = sel.length := List.toFinset_card_of_nodup hn
  have hc2 : opts.toFinset.card = opts.length := List.toFinset_card_of_nodup ho
  constructor
  · constructor
    · intro hlt
      refine Finset.ssubset_iff_subset_ne.mpr ⟨hsubF, ?_⟩
      intro he
      have hcard := congrArg Finset.card he
      rw [hc1, hc2] at hcard
      omega
    · intro hss
      have hcard := Finset.card_lt_card hss
      rw [hc1, hc2] at hcard
      exact hcard
  · intro he
    have hcard := congrArg Finset.card he
    rw [hc1, hc2] at hcard
    omega

theorem nodup_areaOptions (d : List Row) : (areaOptions d).Nodup :=
  nodup_uniqList _

theorem nodup_statusOptions (d : List Row) : (statusOptions d).Nodup :=
  nodup_uniqList _

theorem nodup_genAreaOptions (d : List Row) : (genAreaOptions d).Nodup :=
  nodup_uniqList _

theorem catPred_iff (sel : List String) (v : Option String) :
    catPred sel v = true ↔ ∃ a, v = some a ∧ a ∈ sel := by
  cases v <;> simp [catPred]

/-- C6: for each categorical column — the options are exactly the
distinct observed values; the predicate is applied iff the selection is a
strict subset of them; when applied a row passes iff its (present) value
is selected; and a full selection leaves the stage imposing nothing. -/
theorem c6_categorical_preds (d : List Row) (c : Criteria)
    (hA1 : c.areas.Nodup) (hA2 : c.areas ⊆ areaOptions d)
    (hS1 : c.statuses.Nodup) (hS2 : c.statuses ⊆ statusOptions d)
    (hG1 : c.genAreas.Nodup) (hG2 : c.genAreas ⊆ genAreaOptions d) :
    ((∀ a, a ∈ areaOptions d ↔ ∃ r ∈ d, r.area = some a)
      ∧ (areaActive d c ↔ c.areas.toFinset ⊂ (areaOptions d).toFinset)
      ∧ (∀ r : Row, catPred c.areas r.area = true ↔ ∃ a, r.area = some a ∧ a ∈ c.areas)
      ∧ (c.areas.toFinset = (areaOptions d).toFinset → ∀ r : Row, areaStage d c r = true))
    ∧ ((∀ a, a ∈ statusOptions d ↔ ∃ r ∈ d, r.status = some a)
      ∧ (statusActive d c ↔ c.statuses.toFinset ⊂ (statusOptions d).toFinset)
      ∧ (∀ r : Row, catPred c.statuses r.status = true ↔ ∃ a, r.status = some a ∧ a ∈ c.statuses)
      ∧ (c.statuses.toFinset = (statusOptions d).toFinset → ∀ r : Row, statusStage d c r = true))
    ∧ ((∀ a, a ∈ genAreaOptions d ↔ ∃ r ∈ d, r.genArea = some a)
      ∧ (genAreaActive d c ↔ c.genAreas.toFinset ⊂ (genAreaOptions d).toFinset)
      ∧ (∀ r : Row, catPred c.genAreas r.genArea = true ↔ ∃ a, r.genArea = some a ∧ a ∈ c.genAreas)
      ∧ (c.genAreas.toFinset = (genAreaOptions d).toFinset → ∀ r : Row, genAreaStage d c r = true)) := by
  obtain ⟨hAiff, hAfull⟩ := length_lt_iff_ssubset hA1 (nodup_areaOptions d) hA2
  obtain ⟨hSiff, hSfull⟩ := length_lt_iff_ssubset hS1 (nodup_statusOptions d) hS2
  obtain ⟨hGiff, hGfull⟩ := length_lt_iff_ssubset hG1 (nodup_genAreaOptions d) hG2
  refine ⟨⟨fun a => mem_areaOptions, hAiff, fun r => catPred_iff _ _, ?_⟩,
    ⟨fun a => mem_statusOptions, hSiff, fun r => catPred_iff _ _, ?_⟩,
    ⟨fun a => mem_genAreaOptions, hGiff, fun r => catPred_iff _ _, ?_⟩⟩
  · intro he r
    exact if_neg (hAfull he)
  · intro he r
    exact if_neg (hSfull he)
  · intro he r
    exact if_neg (hGfull he)

/-- Criteria with a strictly narrowed Area selection, for the C6 witness. -/
def exCrit6 : Criteria :=
  { query := "", areas := ["X"], statuses := ["Open", "Closed"],
    genAreas := ["G1", "G2"], savLo := 0, savHi := 2000 }

theorem c6_categorical_preds_witness :
    areaActive [exAlpha, exBeta] exCrit6
    ∧ catPred exCrit6.areas exAlpha.area = true := by
  have h := c6_categorical_preds [exAlpha, exBeta] exCrit6
    (by decide) (by decide) (by decide) (by decide) (by decide) (by decide)
  exact ⟨h.1.2.1.mpr (by decide), (h.1.2.2.1 exAlpha).mpr ⟨"X", rfl, by decide⟩⟩

/-! ## C7: the text predicate -/

theorem matchHere_empty (p : List Atom) : matchHere p [] = p.isEmpty := by
  cases p <;> rfl

theorem compilePat_isEmpty (q : List Char) : (compilePat q).isEmpty = q.isEmpty := by
  cases q <;> simp [compilePat]

theorem map_isEmpty (f : Char → Char) (l : List Char) : (l.map f).isEmpty = l.isEmpty := by
  cases l <;> simp

/-- On dot-free patterns, an anchored regex match is an anchored
case-insensitive comparison. -/
theorem matchHere_eq_subAt : ∀ (q l : List Char), '.' ∉ q →
    matchHere (compilePat q) l = subAt (q.map Char.toLower) (l.map Char.toLower) := by
  intro q
  induction q with
  | nil => intro l _; cases l <;> rfl
  | cons c cs ih =>
    intro l hq
    have hc : c ≠ '.' := fun he => hq (by rw [he]; exact List.mem_cons_self _ _)
    have hcs : '.' ∉ cs := fun h => hq (List.mem_cons_of_mem _ h)
    cases l with
    | nil => simp [compilePat, matchHere, subAt]
    | cons x xs =>
      simp only [compilePat, if_neg hc, List.map_cons, matchHere, subAt, atomMatch]
      rw [ih xs hcs]

/-- On dot-free patterns, `re.search` is case-insensitive substring
containment. -/
theorem searchFrom_eq_subFind (q : List Char) (hq : '.' ∉ q) :
    ∀ s : List Char,
      searchFrom (compilePat q) s = subFind (q.map Char.toLower) (s.map Char.toLower) := by
  intro s
  induction s with
  | nil => simp [searchFrom, subFind, matchHere_empty, compilePat_isEmpty, map_isEmpty]
  | cons x xs ih =>
    simp only [searchFrom, List.map_cons, subFind]
    rw [← List.map_cons, matchHere_eq_subAt _ _ hq, ih]

theorem reSearch_eq_strContainsCI {q : String} (hq : '.' ∉ q.data) :
    ∀ s : String, reSearch q s = strContainsCI q s :=
  fun s => searchFrom_eq_subFind q.data hq s.data

/-- C7 (corrected): the text stage is skipped exactly when the query is
empty; when active it is regex search, not substring search (the
counterexample: `.` is a wildcard).  For a query containing *no* regex
metacharacter at all, the query lies in the compiled fragment and the
two readings coincide: the row matches iff the query is a
case-insensitive substring of `str(ID)` or of `Title`, a missing `Title`
never matching.  (Queries with metacharacters are full regexes, and
invalid ones abort — `filterChecked` / `runApp`.) -/
theorem c7_text_amended (q : String) (r : Row)
    (hmeta : ∀ ch ∈ q.data, ch ∉ regexMeta) :
    (∀ c : Criteria, c.query = "" → textStage c r = true)
    ∧ (∀ c : Criteria, c.query ≠ "" → textStage c r = textPred c.query r)
    ∧ queryKind q = QueryKind.plain
    ∧ textPred q r =
        (strContainsCI q (toString r.id)
          || match r.title with
             | some t => strContainsCI q t
             | none => false) := by
  have hdot : '.' ∉ q.data := fun h =>
    hmeta '.' h (show ('.' : Char) ∈ '.' :: metaNonDot from List.mem_cons_self _ _)
  refine ⟨?_, ?_, ?_, ?_⟩
  · intro c hc
    exact if_neg (by simp [textActive, hc])
  · intro c hc
    exact if_pos hc
  · have h1 : (q.data.all fun ch => !(metaNonDot.contains ch)) = true := by
      rw [List.all_eq_true]
      intro ch hch
      have h2 : ch ∉ metaNonDot := fun hm =>
        hmeta ch hch (show ch ∈ '.' :: metaNonDot from List.mem_cons_of_mem _ hm)
      simp [h2]
    unfold queryKind
    rw [if_pos h1]
  · unfold textPred
    simp only [reSearch_eq_strContainsCI hdot]

theorem c7_text_amended_witness :
    textPred "alpha" exAlpha
      = (strContainsCI "alpha" (toString exAlpha.id)
          || match exAlpha.title with
             | some t => strContainsCI "alpha" t
             | none => false) :=
  (c7_text_amended "alpha" exAlpha (by decide)).2.2.2

/-- C7 counterexample: the query `"."` is a regex wildcard, so the code's
text predicate matches the row `exAlpha` even though `"."` is not a
substring of `str(1)` or of `"Alpha"` — the claim's substring reading
says the row must not match. -/
theorem c7_regex_cex :
    textPred "." exAlpha = true
    ∧ (strContainsCI "." (toString exAlpha.id)
        || match exAlpha.title with
           | some t => strContainsCI "." t
           | none => false) = false := by decide

/-! ## C4, C9, C10: selection, rendering and the fatal bound computation -/

theorem length_insertRow (lt : Row → Row → Bool) (a : Row) (l : List Row) :
    (insertRow lt a l).length = l.length + 1 := by
  induction l with
  | nil => rfl
  | cons b bs ih => by_cases h : lt b a <;> simp [insertRow, h, ih]

theorem length_isortBy (lt : Row → Row → Bool) (l : List Row) :
    (isortBy lt l).length = l.length := by
  induction l with
  | nil => rfl
  | cons a as ih => simp [isortBy, length_insertRow, ih]

theorem length_filter_not_add (p : Row → Bool) (l : List Row) :
    (l.filter p).length + (l.filter fun r => !(p r)).length = l.length := by
  induction l with
  | nil => rfl
  | cons a as ih =>
    cases h : p a <;> simp [List.filter_cons, h] <;> omega

/-- Sorting never changes the number of rows. -/
theorem length_sortData (f : SortField) (asc : Bool) (l : List Row) :
    (sortData f asc l).length = l.length := by
  simp only [sortData, List.length_append, length_isortBy]
  exact length_filter_not_add (hasKey f) l

/-- C10: whenever the filtered subset is empty, the body is the
no-matches message alone — the detail area (found row or not-found
warning) is unreachable for every stored selection. -/
theorem c10_empty_no_detail (d : List Row) (c : Criteria) (s : SortSpec) (sel : Option Int)
    (h : filterData d c = []) :
    renderApp d c s sel = View.noMatches := by
  simp [renderApp, h, sortData, isortBy]

theorem c10_empty_no_detail_witness :
    renderApp [exAlpha] { exCritBase with query := "zzz" } ⟨SortField.savings, false⟩ (some 1)
      = View.noMatches :=
  c10_empty_no_detail _ _ _ _ (by decide)

/-- C4 (corrected): when the stored identifier is nonzero (truthy) and
the filtered subset is non-empty (so the listing renders at all), the
detail area shows the first row of the *full* Dataset with that ID,
whatever the criteria and sort spec are.  (The original claim fails for
the falsy identifier 0: see the counterexample.) -/
theorem c4_resolve_amended (d : List Row) (c : Criteria) (s : SortSpec) (x : Int) (r : Row)
    (hx : x ≠ 0) (hfind : d.find? (fun r' => r'.id == x) = some r)
    (hne : filterData d c ≠ []) :
    renderApp d c s (some x)
      = View.listing (sortData s.field s.asc (filterData d c)) (DetailView.shown r) := by
  have hso : sortData s.field s.asc (filterData d c) ≠ [] := by
    intro h0
    have hl := length_sortData s.field s.asc (filterData d c)
    rw [h0] at hl
    exact hne (List.length_eq_zero.mp hl.symm)
  have hie : (sortData s.field s.asc (filterData d c)).isEmpty = false := by
    cases hs' : sortData s.field s.asc (filterData d c) with
    | nil => exact absurd hs' hso
    | cons a as => rfl
  simp only [renderApp, hie, Bool.false_eq_true, if_false]
  congr 1
  simp only [renderDetail, if_neg hx, hfind]

theorem c4_resolve_amended_witness :
    renderApp [exAlpha, exBeta] (defaultCriteria [exAlpha, exBeta])
        ⟨SortField.savings, false⟩ (some 2)
      = View.listing
          (sortData SortField.savings false
            (filterData [exAlpha, exBeta] (defaultCriteria [exAlpha, exBeta])))
          (DetailView.shown exBeta) :=
  c4_resolve_amended _ _ _ 2 exBeta (by decide) (by decide) (by decide)

/-- C4 counterexample: a dataset containing a row with ID `0`; the row
survives the default filter, `select(0)` is performed, yet the detail
area shows nothing — Python's truthiness test treats the stored `0` as
"no selection", so resolve never returns the row. -/
theorem c4_select_zero_cex :
    exZero.id = 0
    ∧ filterData [exZero] (defaultCriteria [exZero]) = [exZero]
    ∧ renderApp [exZero] (defaultCriteria [exZero]) ⟨SortField.savings, false⟩ (some 0)
        = View.listing [exZero] DetailView.hidden := by decide

/-- C9 (corrected): once the savings column has at least one present
value *and* the query lies in the compiled fragment, the whole render is
total: the app yields a view for every such criteria, sort spec and
selection.  (The original claim fails twice: for an empty Dataset or an
all-missing savings column — the counterexample — and for a query on
which `re.compile` raises, which aborts the render at line 51 even after
a successful bound computation.) -/
theorem c9_no_abort_amended (d : List Row) (c : Criteria) (s : SortSpec) (sel : Option Int)
    (h : ∃ r ∈ d, (r.savings).isSome = true)
    (hq : queryKind c.query = QueryKind.plain) :
    runApp d c s sel = some (Except.ok (renderApp d c s sel)) := by
  obtain ⟨r0, hr0, hs0⟩ := h
  obtain ⟨v0, hv0⟩ := Option.isSome_iff_exists.mp hs0
  have hne : presentSavings d ≠ [] := by
    intro hnil
    have hmem := mem_presentSavings hr0 hv0
    rw [hnil] at hmem
    simp at hmem
  obtain ⟨mn, hmn⟩ := Option.isSome_iff_exists.mp (listMin_isSome hne)
  obtain ⟨mx, hmx⟩ := Option.isSome_iff_exists.mp (listMax_isSome hne)
  simp [runApp, sliderBounds, hmn, hmx, hq]

theorem c9_no_abort_amended_witness :
    runApp [exAlpha] exCritBase ⟨SortField.savings, false⟩ none
      = some (Except.ok (renderApp [exAlpha] exCritBase ⟨SortField.savings, false⟩ none)) :=
  c9_no_abort_amended _ _ _ _ ⟨exAlpha, by decide, by decide⟩ (by decide)

/-- C9 counterexample: on an empty Dataset (or any dataset whose savings
values are all missing) the slider-bound computation `int(df[...].min())`
is `int(NaN)` and raises `ValueError` — an operation after a successful
load aborts. -/
theorem c9_empty_crash_cex :
    runApp [] (defaultCriteria []) ⟨SortField.savings, false⟩ none
      = some (Except.error "ValueError: cannot convert float NaN to integer") := rfl

/-! ## C8: the loader's numeric coercion -/

/-- A raw CSV row with a thousands separator in the savings cell. -/
def exRawGood : RawRow :=
  { id := 1, title := some "Alpha", area := some "X", genArea := some "G1",
    status := some "Open", savings := "987,311" }

/-- A raw CSV row with a non-numeric savings cell. -/
def exRawBad : RawRow :=
  { id := 2, title := some "Beta", area := some "Y", genArea := some "G2",
    status := some "Closed", savings := "N/A" }

/-- C8: the loader coerces `"987,311"` to the number `987311`, coerces
the non-numeric `"N/A"` to a missing value, and a table containing such
cells still loads with every row present. -/
theorem c8_loader_coercion :
    coerceSavings "987,311" = some (987311 : ℚ)
    ∧ coerceSavings "N/A" = none
    ∧ (∀ raws : List RawRow, (load_data raws).length = raws.length)
    ∧ load_data [exRawGood, exRawBad]
        = [{ id := 1, title := some "Alpha", area := some "X", genArea := some "G1",
             status := some "Open", savings := some (987311 : ℚ) },
           { id := 2, title := some "Beta", area := some "Y", genArea := some "G2",
             status := some "Closed", savings := none }] := by
  refine ⟨by decide, by decide, ?_, by decide⟩
  intro raws
  simp [load_data]
